import Mathlib

set_option maxHeartbeats 1000000

namespace Ingest

/-- Truthiness-aware model of the Python values returned by the LightRag client
calls: the code distinguishes `result is not None` from general truthiness
(`if success:`), so both are modelled. -/
inductive PyVal where
  | pynone
  | pybool (b : Bool)
  | pystr (s : String)
  | pydict (entries : List (String × String))
deriving DecidableEq

/-- Python `x is not None`. -/
def PyVal.isNotNone : PyVal → Bool
  | .pynone => false
  | _ => true

/-- Python truthiness: None, False and empty values are falsy. -/
def PyVal.truthy : PyVal → Bool
  | .pynone => false
  | .pybool b => b
  | .pystr s => s != ""
  | .pydict l => !l.isEmpty

/-- Lookup in a Python-dict model (insertion-ordered association list). -/
def dget {α : Type} : List (String × α) → String → Option α
  | [], _ => none
  | (k, v) :: rest, key => if k = key then some v else dget rest key

/-- Whether the modelled value carries a usable document identifier, in the
sense of the spec (a dict with an id or _id field). -/
def PyVal.hasDocId : PyVal → Bool
  | .pydict l => (dget l "id").isSome || (dget l "_id").isSome
  | _ => false

/-- Python dict assignment `d[key] = v`: overwrite in place, else append. -/
def dset {α : Type} : List (String × α) → String → α → List (String × α)
  | [], key, v => [(key, v)]
  | (k, w) :: rest, key, v =>
      if k = key then (k, v) :: rest else (k, w) :: dset rest key v

/-- Python `d[key].update(...)` restricted to the modelled fields; a no-op when
the key is absent (the daemon always calls start_file first, so the key is
present at every finish_file call the program makes). -/
def dmodify {α : Type} : List (String × α) → String → (α → α) → List (String × α)
  | [], _, _ => []
  | (k, w) :: rest, key, f =>
      if k = key then (k, f w) :: rest else (k, w) :: dmodify rest key f

/-- Per-file progress entry: the modelled fields of the dicts stored in
`progress["files"]` (timestamps dropped; a Python None error value and an
absent error key are both `none`). -/
structure FileEntry where
  status : String
  error : Option String
deriving DecidableEq

/-- The Run Progress record built by ProgressTracker.__init__ (timestamps
dropped; `to_process` is absent until update_file_count first writes it,
hence Option). -/
structure Progress where
  total_files : Nat
  to_process : Option Nat
  processed_files : Nat
  successful : Nat
  failed : Nat
  skipped : Nat
  deleted : Nat
  current_file : Option String
  status : String
  files : List (String × FileEntry)
deriving DecidableEq

def Progress.init : Progress :=
  { total_files := 0, to_process := none, processed_files := 0, successful := 0,
    failed := 0, skipped := 0, deleted := 0, current_file := none,
    status := "starting", files := [] }

/-- ProgressTracker.update_file_count (the durable save is dropped throughout:
save never mutates the record and swallows its own I/O errors). -/
def update_file_count (p : Progress) (total to_process skipped : Nat) : Progress :=
  { p with total_files := total, to_process := some to_process, skipped := skipped }

/-- ProgressTracker.update_status (the completed_at timestamp is dropped). -/
def update_status (p : Progress) (status : String) : Progress :=
  { p with status := status }

/-- ProgressTracker.start_file: records the current file and creates or
overwrites the file entry with status processing. -/
def start_file (p : Progress) (filepath : String) : Progress :=
  { p with current_file := some filepath,
           files := dset p.files filepath { status := "processing", error := none } }

/-- ProgressTracker.finish_file: bumps the aggregate counters, moves the entry
to its terminal status, and clears current_file when it points at this file. -/
def finish_file (p : Progress) (filepath : String) (success : Bool)
    (error : Option String) : Progress :=
  let p1 := { p with processed_files := p.processed_files + 1 }
  let p2 := if success then { p1 with successful := p1.successful + 1 }
            else { p1 with failed := p1.failed + 1 }
  let upd : FileEntry → FileEntry := fun en =>
    { en with status := if success then "success" else "failed", error := error }
  let p3 := { p2 with files := dmodify p2.files filepath upd }
  if p3.current_file = some filepath then { p3 with current_file := none } else p3

/-- One Progress Ledger mutation. -/
inductive Op where
  | update_file_count (total to_process skipped : Nat)
  | update_status (s : String)
  | start_file (fp : String)
  | finish_file (fp : String) (success : Bool) (error : Option String)
deriving DecidableEq

def applyOp (p : Progress) : Op → Progress
  | .update_file_count t tp sk => update_file_count p t tp sk
  | .update_status s => update_status p s
  | .start_file fp => start_file p fp
  | .finish_file fp s e => finish_file p fp s e

def applyOps (p : Progress) (ops : List Op) : Progress := ops.foldl applyOp p

/-- Whether a ledger operation writes the files-map entry of `fp`. -/
def touches (fp : String) : Op → Bool
  | .start_file g => g == fp
  | .finish_file g _ _ => g == fp
  | _ => false

/-- The effect of the fp-touching operations on the entry of fp alone. -/
def entryFold (st : Option FileEntry) : List Op → Option FileEntry
  | [] => st
  | Op.start_file _ :: rest =>
      entryFold (some { status := "processing", error := none }) rest
  | Op.finish_file _ s e :: rest =>
      entryFold (st.map fun en =>
        { en with status := if s then "success" else "failed", error := e }) rest
  | _ :: rest => entryFold st rest

/-- Rank of an observed entry: 0 pending (entry absent), 1 processing,
2 terminal. -/
def entryRank : Option FileEntry → Nat
  | none => 0
  | some en => if en.status = "processing" then 1 else 2

/-- Which transport branch the duck-typed fallback chain of
LightRagClientWrapper takes, with that branch's outcome: the client-method
branches all reduce to `result is not None`; the raw aiohttp fallback checks
`resp.status == 200`; with no client method and no session the Python function
falls off the end and returns None. -/
inductive ClientCall where
  | clientMethod (result : Except String PyVal)
  | httpFallback (status : Except String Nat)
  | noTransport

/-- LightRagClientWrapper.insert_document: a raising branch is re-raised as
Insert failed. -/
def insert_document : ClientCall → Except String PyVal
  | .clientMethod (.ok v) => .ok (PyVal.pybool v.isNotNone)
  | .clientMethod (.error e) => .error ("Insert failed: " ++ e)
  | .httpFallback (.ok st) => .ok (PyVal.pybool (st == 200))
  | .httpFallback (.error e) => .error ("Insert failed: " ++ e)
  | .noTransport => .ok PyVal.pynone

/-- LightRagClientWrapper.delete_document: same shape, Delete failed prefix. -/
def delete_document : ClientCall → Except String PyVal
  | .clientMethod (.ok v) => .ok (PyVal.pybool v.isNotNone)
  | .clientMethod (.error e) => .error ("Delete failed: " ++ e)
  | .httpFallback (.ok st) => .ok (PyVal.pybool (st == 200))
  | .httpFallback (.error e) => .error ("Delete failed: " ++ e)
  | .noTransport => .ok PyVal.pynone

/-- One item of the listing response: metadata.get("source_path"),
item.get("id") and item.get("_id"). -/
structure Hit where
  source_path : Option String
  idField : Option String
  underscoreId : Option String
deriving DecidableEq

/-- Python `hit.get("id") or hit.get("_id")` followed by `if doc_id:` — the
`or` falls through on falsy values (None or the empty string), and the final
truthiness test drops empty-string ids. -/
def docIdOf (h : Hit) : Option String :=
  let raw := match h.idField with
    | some s => if s = "" then h.underscoreId else some s
    | none => h.underscoreId
  match raw with
  | some s => if s = "" then none else some s
  | none => none

/-- Shape of the search_documents response: a dict with one of the recognised
keys, a dict with none of them, a bare list, or anything else. -/
inductive SearchResponse where
  | dictHits (hits : List Hit)
  | dictDocuments (docs : List Hit)
  | dictResults (items : List Hit)
  | dictOther
  | listResp (items : List Hit)
  | other
deriving DecidableEq

/-- The dict-building loop shared by all parse branches of
get_indexed_documents. -/
def collectHits (hits : List Hit) : List (String × String) :=
  hits.foldl (fun d h =>
    match h.source_path, docIdOf h with
    | some sp, some did => dset d sp did
    | _, _ => d) []

inductive LogLevel where
  | info
  | warning
  | error
deriving DecidableEq

/-- IngestionDaemon.get_indexed_documents: returns the source_path to doc-id
dict together with the log output (level, message); a raising listing call is
caught and degraded to an empty dict with an error-level log line. -/
def get_indexed_documents (listing : Except String SearchResponse) :
    List (String × String) × List (LogLevel × String) :=
  match listing with
  | .error e =>
      ([], [(LogLevel.info, "Checking for already indexed documents..."),
            (LogLevel.error, "Could not query existing documents: " ++ e)])
  | .ok r =>
      let d := match r with
        | .dictHits hs => collectHits hs
        | .dictDocuments hs => collectHits hs
        | .dictResults hs => collectHits hs
        | .listResp hs => collectHits hs
        | .dictOther => []
        | .other => []
      (d, [(LogLevel.info, "Checking for already indexed documents..."),
           (LogLevel.info, "Found " ++ toString d.length ++ " already indexed documents")])

/-- IngestionDaemon.collect_markdown_files: the argument is the outcome of
`sorted(Path(root).rglob(...))` (error meaning the traversal raised); the
except clause logs and returns an empty list, so the function itself never
raises. -/
def collect_markdown_files (rglobResult : Except String (List String)) :
    Except String (List String) :=
  match rglobResult with
  | .ok fs => .ok fs
  | .error _ => .ok []

/-- The error text recorded when md_path.read_text raises. -/
def readErrorMsg (e : String) : String := "Failed to read file: " ++ e

/-- The error text recorded when the insert call raises. -/
def ingestErrorMsg (e : String) : String := "Failed to ingest: " ++ e

/-- IngestionDaemon.ingest_one for one file: inputs are the outcome of
md_path.read_text and the insert transport branch with its outcome; returns
the tracker after start_file plus exactly one finish_file, the boolean the
coroutine returns, and the insert calls made (none when the read failed).
Both effects sit inside try/except, so the function never raises. -/
def ingest_one (rd : Except String String) (call : ClientCall)
    (p : Progress) (fp : String) : Progress × Bool × List String :=
  let p1 := start_file p fp
  match rd with
  | .error e => (finish_file p1 fp false (some (readErrorMsg e)), false, [])
  | .ok _text =>
    match insert_document call with
    | .error e => (finish_file p1 fp false (some (ingestErrorMsg e)), false, [fp])
    | .ok v =>
      if v.truthy then (finish_file p1 fp true none, true, [fp])
      else (finish_file p1 fp false (some "Insert failed - no response"), false, [fp])

/-- The terminal entry ingest_one writes for a file whose read succeeded,
as a function of the insert call. -/
def entryOfInsert (call : ClientCall) : FileEntry :=
  match insert_document call with
  | .error e => { status := "failed", error := some (ingestErrorMsg e) }
  | .ok v =>
    if v.truthy then { status := "success", error := none }
    else { status := "failed", error := some "Insert failed - no response" }

/-- The per-run environment: the outcomes of every external effect the run can
touch. sigAt is the index (counting the code's reads of shutdown_requested in
program order) from which the SIGINT or SIGTERM flag reads true; none means no
signal is ever delivered. -/
structure Env where
  rglob : Except String (List String)
  healthOk : Bool
  listing : Except String SearchResponse
  readRes : String → Except String String
  insertCall : String → ClientCall
  deleteCall : String → ClientCall
  concurrency : Nat
  sigAt : Option Nat

/-- The value of self.shutdown_requested at its t-th read: the handler only
ever writes True, so the flag is false before the signal and true from it on. -/
def consult (sigAt : Option Nat) (t : Nat) : Bool :=
  match sigAt with
  | none => false
  | some k => decide (k ≤ t)

/-- IngestionDaemon.signal_handler: sets shutdown_requested to True whatever
its previous value was; nothing in the daemon ever resets it. -/
def signal_handler (_shutdown_requested : Bool) : Bool := true

/-- Whether the content read of a file succeeds in this environment. -/
def readOk (env : Env) (f : String) : Bool :=
  match env.readRes f with
  | .ok _ => true
  | .error _ => false

/-- The terminal entry the run records for a given file. -/
def expectedEntry (env : Env) (f : String) : FileEntry :=
  match env.readRes f with
  | .error e => { status := "failed", error := some (readErrorMsg e) }
  | .ok _ => entryOfInsert (env.insertCall f)

structure SeqOut where
  tracker : Progress
  results : List Bool
  started : List String
  submitted : List String

/-- Sequential execution of ingest_one over a list of files (one linearisation
of a gathered batch; each file's ledger writes are its own, so per-entry facts
are interleaving-independent for distinct paths). -/
def processSeq (env : Env) (p : Progress) : List String → SeqOut
  | [] => { tracker := p, results := [], started := [], submitted := [] }
  | f :: rest =>
    let r := ingest_one (env.readRes f) (env.insertCall f) p f
    let out := processSeq env r.1 rest
    { tracker := out.tracker, results := r.2.1 :: out.results,
      started := f :: out.started, submitted := r.2.2 ++ out.submitted }

/-- The slices tasks[i:i+C] walked by the batch loop, for C at least 1 (Python
range with step 0 raises ValueError; max keeps the definition total). -/
def chunks (c : Nat) (l : List String) : List (List String) :=
  match l with
  | [] => []
  | x :: xs => (x :: xs).take (max c 1) :: chunks c ((x :: xs).drop (max c 1))
termination_by l.length
decreasing_by
  simp only [List.length_drop, List.length_cons]
  have h1 : 1 ≤ max c 1 := Nat.le_max_right c 1
  omega

structure LoopOut where
  tracker : Progress
  results : List Bool
  started : List String
  submitted : List String
  tick : Nat

/-- The batch loop of IngestionDaemon.run (lines 443-460): one
shutdown_requested check per batch boundary; a set flag breaks before the
batch is started, and an already-gathered batch always runs to completion. -/
def batchLoop (env : Env) (p : Progress) (bs : List (List String)) (tick : Nat) : LoopOut :=
  match bs with
  | [] => { tracker := p, results := [], started := [], submitted := [], tick := tick }
  | b :: rest =>
    if consult env.sigAt tick then
      { tracker := p, results := [], started := [], submitted := [], tick := tick + 1 }
    else
      let s := processSeq env p b
      let out := batchLoop env s.tracker rest (tick + 1)
      { tracker := out.tracker, results := s.results ++ out.results,
        started := s.started ++ out.started, submitted := s.submitted ++ out.submitted,
        tick := out.tick }

structure DelOut where
  tick : Nat
  deletedCount : Nat
  attempted : List String
  raised : Option String

/-- The force-mode deletion loop (run lines 388-397): strictly sequential, one
shutdown check per item, the local deleted_count incremented on truthy
results; an exception from delete_document is not caught per item, so it
aborts the whole try block. -/
def deletionLoop (env : Env) : List (String × String) → Nat → Nat → List String → DelOut
  | [], tick, dc, att => { tick := tick, deletedCount := dc, attempted := att, raised := none }
  | (_sp, did) :: rest, tick, dc, att =>
    if consult env.sigAt tick then
      { tick := tick + 1, deletedCount := dc, attempted := att, raised := none }
    else
      match delete_document (env.deleteCall did) with
      | .error e =>
          { tick := tick + 1, deletedCount := dc, attempted := att ++ [did], raised := some e }
      | .ok v =>
          deletionLoop env rest (tick + 1) (if v.truthy then dc + 1 else dc) (att ++ [did])

structure RunOutput where
  tracker : Progress
  started : List String
  submitted : List String
  deleteAttempts : List String
  deletedCount : Nat
  raised : Option String

/-- Run lines 418-470: the early all-indexed return, the update_file_count
call — where force mode reads the local skipped_count it never assigned,
raising NameError, caught by the outer except which sets status failed and
re-raises — then the batch loop and the final status. skC models the possibly
unbound local skipped_count. -/
def finishRun (env : Env) (p : Progress) (files ftp : List String)
    (skC : Option Nat) (tick : Nat) (delAtt : List String) (dCount : Nat) : RunOutput :=
  if ftp.isEmpty then
    { tracker := update_status p "completed", started := [], submitted := [],
      deleteAttempts := delAtt, deletedCount := dCount, raised := none }
  else
    match skC with
    | none =>
        { tracker := update_status p "failed", started := [], submitted := [],
          deleteAttempts := delAtt, deletedCount := dCount,
          raised := some "NameError: name skipped_count is not defined" }
    | some sk =>
        let p1 := update_file_count p files.length ftp.length sk
        let lo := batchLoop env p1 (chunks env.concurrency ftp) tick
        if consult env.sigAt lo.tick then
          { tracker := update_status lo.tracker "interrupted", started := lo.started,
            submitted := lo.submitted, deleteAttempts := delAtt, deletedCount := dCount,
            raised := none }
        else
          { tracker := update_status lo.tracker "completed", started := lo.started,
            submitted := lo.submitted, deleteAttempts := delAtt, deletedCount := dCount,
            raised := none }

/-- The planning-time remote snapshot a run sees. -/
def snapshotOf (env : Env) : List (String × String) :=
  (get_indexed_documents env.listing).1

/-- Normal-mode files_to_process: the enumerated files absent from the
snapshot, in enumeration order. -/
def ftpOf (env : Env) (fs : List String) : List String :=
  fs.filter (fun f => (dget (snapshotOf env) f).isNone)

/-- The tracker state right after the normal-mode update_file_count call. -/
def planTracker (env : Env) (fs : List String) : Progress :=
  update_file_count (update_status Progress.init "running") fs.length
    (ftpOf env fs).length (fs.length - (ftpOf env fs).length)

/-- IngestionDaemon.run. -/
def run (env : Env) (force skip_check : Bool) : RunOutput :=
  let p0 := update_status Progress.init "running"
  let files := match collect_markdown_files env.rglob with
    | .ok l => l
    | .error _ => []
  if files.isEmpty then
    { tracker := update_status p0 "failed", started := [], submitted := [],
      deleteAttempts := [], deletedCount := 0, raised := none }
  else if !env.healthOk then
    { tracker := update_status p0 "failed", started := [], submitted := [],
      deleteAttempts := [], deletedCount := 0, raised := none }
  else if skip_check then
    finishRun env p0 files files (some 0) 0 [] 0
  else if force then
    let d := deletionLoop env (snapshotOf env) 0 0 []
    match d.raised with
    | some e =>
        { tracker := update_status p0 "failed", started := [], submitted := [],
          deleteAttempts := d.attempted, deletedCount := d.deletedCount, raised := some e }
    | none => finishRun env p0 files files none d.tick d.attempted d.deletedCount
  else
    let ftp := ftpOf env files
    finishRun env p0 files ftp (some (files.length - ftp.length)) 0 [] 0

/-- A benign environment the concrete test environments are built from. -/
def baseEnv : Env :=
  { rglob := Except.ok [], healthOk := true,
    listing := Except.ok SearchResponse.dictOther,
    readRes := fun _ => Except.ok "text",
    insertCall := fun _ => ClientCall.clientMethod (Except.ok (PyVal.pystr "doc-1")),
    deleteCall := fun _ => ClientCall.clientMethod (Except.ok (PyVal.pystr "ok")),
    concurrency := 8, sigAt := none }

/-- Five enumerated files of which the snapshot already holds two. -/
def envC2w : Env :=
  { baseEnv with
    rglob := Except.ok ["a.md", "b.md", "c.md", "d.md", "e.md"],
    listing := Except.ok (SearchResponse.dictHits
      [{ source_path := some "b.md", idField := some "d2", underscoreId := none },
       { source_path := some "d.md", idField := some "d4", underscoreId := none }]) }

/-- One enumerated file whose path the snapshot already holds. -/
def envC2x : Env :=
  { baseEnv with
    rglob := Except.ok ["a.md"],
    listing := Except.ok (SearchResponse.dictHits
      [{ source_path := some "a.md", idField := some "d1", underscoreId := none }]) }

/-- Two files, the first of which fails to read. -/
def envC4w : Env :=
  { baseEnv with
    rglob := Except.ok ["bad.md", "good.md"],
    readRes := fun f => if f = "bad.md" then Except.error "UnicodeDecodeError" else Except.ok "text" }

/-- All files already indexed and the shutdown signal delivered before the
first flag read. -/
def envC5x : Env :=
  { envC2x with sigAt := some 0 }

/-- Four files at concurrency two with the signal arriving after the first
batch boundary check. -/
def envC5w : Env :=
  { baseEnv with
    rglob := Except.ok ["a.md", "b.md", "c.md", "d.md"],
    concurrency := 2, sigAt := some 1 }

/-- Force mode with one remote document whose deletion succeeds. -/
def envC6a : Env :=
  { baseEnv with
    rglob := Except.ok ["a.md"],
    listing := Except.ok (SearchResponse.dictHits
      [{ source_path := some "old.md", idField := some "d1", underscoreId := none }]) }

/-- Force mode with one remote document whose deletion raises. -/
def envC6b : Env :=
  { envC6a with deleteCall := fun _ => ClientCall.clientMethod (Except.error "boom") }

/-- A run whose listing call raises. -/
def envC7w : Env :=
  { baseEnv with
    rglob := Except.ok ["a.md", "b.md"],
    listing := Except.error "boom" }

/-- A ledger trace in which a file is started once and finished once. -/
def opsC9 : List Op :=
  [Op.update_status "running", Op.start_file "a.md",
   Op.finish_file "a.md" true none, Op.update_status "completed"]

end Ingest

namespace Ingest

theorem dget_dset_self {α : Type} (d : List (String × α)) (k : String) (v : α) :
    dget (dset d k v) k = some v := by
  induction d with
  | nil => simp [dget, dset]
  | cons kv rest ih =>
    obtain ⟨k1, v1⟩ := kv
    by_cases h : k1 = k
    · simp [dget, dset, h]
    · simp [dget, dset, h, ih]

theorem dget_dset_ne {α : Type} (d : List (String × α)) (k k2 : String) (v : α)
    (h : k2 ≠ k) : dget (dset d k v) k2 = dget d k2 := by
  have hk : ¬ k = k2 := fun hh => h hh.symm
  induction d with
  | nil =>
    show dget [(k, v)] k2 = none
    simp only [dget]
    rw [if_neg hk]
  | cons kv rest ih =>
    obtain ⟨k1, v1⟩ := kv
    by_cases h1 : k1 = k
    · subst h1
      simp only [dset, if_pos rfl, dget]
      rw [if_neg hk, if_neg hk]
    · simp only [dset, if_neg h1, dget]
      by_cases h2 : k1 = k2
      · rw [if_pos h2, if_pos h2]
      · rw [if_neg h2, if_neg h2, ih]

theorem dget_dmodify_self {α : Type} (d : List (String × α)) (k : String) (f : α → α) :
    dget (dmodify d k f) k = (dget d k).map f := by
  induction d with
  | nil => simp [dget, dmodify]
  | cons kv rest ih =>
    obtain ⟨k1, v1⟩ := kv
    by_cases h : k1 = k
    · simp [dget, dmodify, h]
    · simp [dget, dmodify, h, ih]

theorem dget_dmodify_ne {α : Type} (d : List (String × α)) (k k2 : String) (f : α → α)
    (h : k2 ≠ k) : dget (dmodify d k f) k2 = dget d k2 := by
  have hk : ¬ k = k2 := fun hh => h hh.symm
  induction d with
  | nil => rfl
  | cons kv rest ih =>
    obtain ⟨k1, v1⟩ := kv
    by_cases h1 : k1 = k
    · subst h1
      simp only [dmodify, if_pos rfl, dget]
      rw [if_neg hk, if_neg hk]
    · simp only [dmodify, if_neg h1, dget]
      by_cases h2 : k1 = k2
      · rw [if_pos h2, if_pos h2]
      · rw [if_neg h2, if_neg h2, ih]

theorem finish_file_files (p : Progress) (fp : String) (s : Bool) (e : Option String) :
    (finish_file p fp s e).files =
      dmodify p.files fp (fun en =>
        { en with status := if s then "success" else "failed", error := e }) := by
  unfold finish_file
  cases s <;> (by_cases hc : p.current_file = some fp <;> simp [hc])

theorem finish_file_processed (p : Progress) (fp : String) (s : Bool) (e : Option String) :
    (finish_file p fp s e).processed_files = p.processed_files + 1 := by
  unfold finish_file
  cases s <;> (by_cases hc : p.current_file = some fp <;> simp [hc])

theorem finish_file_sum (p : Progress) (fp : String) (s : Bool) (e : Option String) :
    (finish_file p fp s e).successful + (finish_file p fp s e).failed
      = p.successful + p.failed + 1 := by
  unfold finish_file
  cases s <;> (by_cases hc : p.current_file = some fp <;> simp [hc]) <;> omega

theorem finish_file_deleted (p : Progress) (fp : String) (s : Bool) (e : Option String) :
    (finish_file p fp s e).deleted = p.deleted := by
  unfold finish_file
  cases s <;> (by_cases hc : p.current_file = some fp <;> simp [hc])

theorem finish_file_skipped (p : Progress) (fp : String) (s : Bool) (e : Option String) :
    (finish_file p fp s e).skipped = p.skipped := by
  unfold finish_file
  cases s <;> (by_cases hc : p.current_file = some fp <;> simp [hc])

/-- C1: for every run, after every Progress Ledger mutation sequence (any
interleaving of update_file_count, update_status, start_file and finish_file
starting from the freshly initialised record), the Run Progress record
satisfies processed_files = successful + failed. -/
theorem C1_processed_eq_successful_add_failed (ops : List Op) :
    (applyOps Progress.init ops).processed_files =
      (applyOps Progress.init ops).successful + (applyOps Progress.init ops).failed := by
  suffices h : ∀ (ops : List Op) (p : Progress),
      p.processed_files = p.successful + p.failed →
      (applyOps p ops).processed_files =
        (applyOps p ops).successful + (applyOps p ops).failed by
    exact h ops Progress.init rfl
  intro ops
  induction ops with
  | nil => intro p hp; exact hp
  | cons op rest ih =>
    intro p hp
    have hstep : (applyOp p op).processed_files =
        (applyOp p op).successful + (applyOp p op).failed := by
      cases op with
      | update_file_count t tp sk => exact hp
      | update_status s => exact hp
      | start_file fp => exact hp
      | finish_file fp s e =>
        show (finish_file p fp s e).processed_files =
          (finish_file p fp s e).successful + (finish_file p fp s e).failed
        rw [finish_file_processed, finish_file_sum, hp]
    exact ih (applyOp p op) hstep

theorem applyOp_deleted (p : Progress) (op : Op) : (applyOp p op).deleted = p.deleted := by
  cases op with
  | update_file_count t tp sk => rfl
  | update_status s => rfl
  | start_file fp => rfl
  | finish_file fp s e => exact finish_file_deleted p fp s e

theorem ingest_one_deleted (rd : Except String String) (call : ClientCall)
    (p : Progress) (fp : String) : (ingest_one rd call p fp).1.deleted = p.deleted := by
  unfold ingest_one
  cases rd with
  | error e => exact finish_file_deleted _ _ _ _
  | ok t =>
    cases insert_document call with
    | error e => exact finish_file_deleted _ _ _ _
    | ok v =>
      by_cases hv : v.truthy
      · simp [hv, finish_file_deleted, start_file]
      · simp [hv, finish_file_deleted, start_file]

theorem processSeq_deleted (env : Env) (fs : List String) :
    ∀ p : Progress, (processSeq env p fs).tracker.deleted = p.deleted := by
  induction fs with
  | nil => intro p; rfl
  | cons f rest ih =>
    intro p
    simp only [processSeq]
    rw [ih, ingest_one_deleted]

theorem batchLoop_deleted (env : Env) (bs : List (List String)) :
    ∀ (p : Progress) (t : Nat), (batchLoop env p bs t).tracker.deleted = p.deleted := by
  induction bs with
  | nil => intro p t; rfl
  | cons b rest ih =>
    intro p t
    simp only [batchLoop]
    split
    · rfl
    · simp only
      rw [ih, processSeq_deleted]

theorem finishRun_deleted (env : Env) (p : Progress) (files ftp : List String)
    (skC : Option Nat) (tick : Nat) (delAtt : List String) (dCount : Nat) :
    (finishRun env p files ftp skC tick delAtt dCount).tracker.deleted = p.deleted := by
  unfold finishRun
  split
  · rfl
  · cases skC with
    | none => rfl
    | some sk =>
      simp only
      split
      · simp only [update_status]
        rw [batchLoop_deleted]
        rfl
      · simp only [update_status]
        rw [batchLoop_deleted]
        rfl

/-- C10: the persisted deleted counter stays 0 in every run, force mode
included: it is initialised to 0, no ledger operation writes it, and the run
only counts successful force-mode deletions in a local variable. -/
theorem C10_persisted_deleted_stays_zero :
    (∀ ops : List Op, (applyOps Progress.init ops).deleted = 0)
    ∧ (∀ (env : Env) (force skip_check : Bool),
        (run env force skip_check).tracker.deleted = 0) := by
  constructor
  · intro ops
    suffices h : ∀ (ops : List Op) (p : Progress),
        (applyOps p ops).deleted = p.deleted by
      rw [h ops Progress.init]; rfl
    intro ops
    induction ops with
    | nil => intro p; rfl
    | cons op rest ih => intro p; rw [applyOps, List.foldl_cons, ← applyOps, ih, applyOp_deleted]
  · intro env force skip_check
    simp only [run]
    split_ifs
    all_goals
      first
      | rfl
      | (rw [finishRun_deleted]; rfl)
      | (split
         · rfl
         · rw [finishRun_deleted]; rfl)

theorem ingest_one_entry (rd : Except String String) (call : ClientCall)
    (p : Progress) (fp : String) :
    dget (ingest_one rd call p fp).1.files fp =
      some (match rd with
            | .error e => { status := "failed", error := some (readErrorMsg e) }
            | .ok _ => entryOfInsert call) := by
  cases rd with
  | error e =>
    simp only [ingest_one, finish_file_files, start_file]
    rw [dget_dmodify_self, dget_dset_self]
    rfl
  | ok t =>
    simp only [ingest_one]
    unfold entryOfInsert
    cases h : insert_document call with
    | error e =>
      simp only [finish_file_files, start_file]
      rw [dget_dmodify_self, dget_dset_self]
      rfl
    | ok v =>
      by_cases hv : v.truthy
      · simp only [hv, if_true, finish_file_files, start_file]
        rw [dget_dmodify_self, dget_dset_self]
        rfl
      · simp only [hv, if_false, Bool.false_eq_true, finish_file_files, start_file]
        rw [dget_dmodify_self, dget_dset_self]
        rfl

/-- C3 (amended): after a successful read, a file is marked success exactly
when the insert call completes without raising and the wrapper's returned
value is truthy — for the client-method branch that means the client result
is not None, with no truthiness or document-id test on the result itself;
a completed call whose result is None is marked failed with the error
"Insert failed - no response". -/
theorem C3_success_iff_insert_result_not_none (p : Progress) (fp t : String)
    (call : ClientCall) (v : PyVal) :
    (dget (ingest_one (Except.ok t) call p fp).1.files fp = some (entryOfInsert call))
    ∧ ((entryOfInsert call).status = "success" ↔
        ∃ w : PyVal, insert_document call = Except.ok w ∧ w.truthy = true)
    ∧ insert_document (ClientCall.clientMethod (Except.ok v)) =
        Except.ok (PyVal.pybool v.isNotNone)
    ∧ entryOfInsert (ClientCall.clientMethod (Except.ok PyVal.pynone)) =
        { status := "failed", error := some "Insert failed - no response" } := by
  refine ⟨ingest_one_entry (Except.ok t) call p fp, ?_, rfl, rfl⟩
  unfold entryOfInsert
  cases h : insert_document call with
  | error e =>
    simp only
    constructor
    · intro hs; exact absurd hs (by decide)
    · rintro ⟨w, hw, -⟩; exact absurd hw (by simp)
  | ok w =>
    by_cases hw : w.truthy
    · simp only [hw, if_true]
      constructor
      · intro _; exact ⟨w, rfl, hw⟩
      · intro _
        first
        | rfl
        | exact trivial
    · simp only [hw, Bool.false_eq_true, if_false]
      constructor
      · intro hs; exact absurd hs (by decide)
      · rintro ⟨w2, hw2, ht2⟩
        cases hw2
        exact absurd ht2 (by simp [hw])

/-- C3 counterexample: an insert call that completes and returns the falsy,
id-free Python value False — no usable document identifier, no truthy
confirmation — is nevertheless marked success by the code, because the
wrapper only tests `result is not None`. -/
theorem C3_counterexample :
    (PyVal.pybool false).truthy = false
    ∧ (PyVal.pybool false).hasDocId = false
    ∧ insert_document (ClientCall.clientMethod (Except.ok (PyVal.pybool false))) =
        Except.ok (PyVal.pybool true)
    ∧ dget (ingest_one (Except.ok "text")
          (ClientCall.clientMethod (Except.ok (PyVal.pybool false)))
          Progress.init "a.md").1.files "a.md" =
        some { status := "success", error := none } := by
  refine ⟨rfl, rfl, rfl, ?_⟩
  decide

/-- C8 counterexample: when the directory traversal raises (root missing or
unreadable), collect_markdown_files does not fail with any error — there is
no EnumerationError anywhere in the program — it swallows the exception and
returns the ordinary value of an empty list. -/
theorem C8_counterexample :
    collect_markdown_files (Except.error "No such file or directory") = Except.ok [] := rfl

/-- C8 (amended): enumeration never fails — a nonexistent or unreadable root
degrades to an empty enumeration — and any empty enumeration makes the run
abort with ledger status failed, with no file started or submitted and no
remote call made (the outcome is independent of the health and listing
environment, which the aborting run never consults). -/
theorem C8_empty_enumeration_aborts (e : String) (env : Env)
    (force skip_check : Bool) :
    collect_markdown_files (Except.error e) = Except.ok []
    ∧ (run { env with rglob := Except.error e } force skip_check).tracker.status = "failed"
    ∧ (run { env with rglob := Except.error e } force skip_check).started = []
    ∧ (run { env with rglob := Except.error e } force skip_check).submitted = []
    ∧ (run { env with rglob := Except.error e } force skip_check).deleteAttempts = []
    ∧ (run { env with rglob := Except.error e } force skip_check).raised = none
    ∧ (run { env with rglob := Except.ok [] } force skip_check).tracker.status = "failed" := by
  exact ⟨rfl, rfl, rfl, rfl, rfl, rfl, rfl⟩

theorem applyOp_files_untouched (p : Progress) (op : Op) (fp : String)
    (h : touches fp op = false) :
    dget (applyOp p op).files fp = dget p.files fp := by
  cases op with
  | update_file_count t tp sk => rfl
  | update_status s => rfl
  | start_file g =>
    have hg : ¬ g = fp := by simpa [touches] using h
    show dget (start_file p g).files fp = dget p.files fp
    unfold start_file
    exact dget_dset_ne _ _ _ _ (fun hh => hg hh.symm)
  | finish_file g s e =>
    have hg : ¬ g = fp := by simpa [touches] using h
    show dget (finish_file p g s e).files fp = dget p.files fp
    rw [finish_file_files]
    exact dget_dmodify_ne _ _ _ _ (fun hh => hg hh.symm)

theorem applyOp_files_start (p : Progress) (fp : String) :
    dget (applyOp p (Op.start_file fp)).files fp =
      some { status := "processing", error := none } := by
  show dget (start_file p fp).files fp = _
  unfold start_file
  exact dget_dset_self _ _ _

theorem applyOp_files_finish (p : Progress) (fp : String) (s : Bool) (e : Option String) :
    dget (applyOp p (Op.finish_file fp s e)).files fp =
      (dget p.files fp).map (fun en =>
        { en with status := if s then "success" else "failed", error := e }) := by
  show dget (finish_file p fp s e).files fp = _
  rw [finish_file_files]
  exact dget_dmodify_self _ _ _

theorem applyOps_entry (fp : String) (ops : List Op) : ∀ p : Progress,
    dget (applyOps p ops).files fp = entryFold (dget p.files fp) (ops.filter (touches fp)) := by
  induction ops with
  | nil => intro p; rfl
  | cons op rest ih =>
    intro p
    have h1 : dget (applyOps p (op :: rest)).files fp =
        entryFold (dget (applyOp p op).files fp) (rest.filter (touches fp)) := ih (applyOp p op)
    rw [h1]
    by_cases h : touches fp op = true
    · cases op with
      | update_file_count t tp sk => simp [touches] at h
      | update_status s2 => simp [touches] at h
      | start_file g =>
        have hg : g = fp := by simpa [touches] using h
        subst hg
        rw [applyOp_files_start, List.filter_cons_of_pos (by simp [touches])]
        rfl
      | finish_file g s e =>
        have hg : g = fp := by simpa [touches] using h
        subst hg
        rw [applyOp_files_finish, List.filter_cons_of_pos (by simp [touches])]
        rfl
    · rw [applyOp_files_untouched p op fp (by simpa using h),
          List.filter_cons_of_neg (by simpa using h)]

theorem append_split_one {α : Type} {l1 l2 : List α} {a : α} (h : l1 ++ l2 = [a]) :
    l1 = [] ∨ l1 = [a] := by
  cases l1 with
  | nil => exact Or.inl rfl
  | cons x t =>
    simp only [List.cons_append] at h
    injection h with h1 h2
    have ht : t = [] := by
      cases t with
      | nil => rfl
      | cons y t2 => simp at h2
    subst ht h1
    exact Or.inr rfl

theorem append_split_two {α : Type} {l1 l2 : List α} {a b : α} (h : l1 ++ l2 = [a, b]) :
    l1 = [] ∨ l1 = [a] ∨ l1 = [a, b] := by
  cases l1 with
  | nil => exact Or.inl rfl
  | cons x t =>
    simp only [List.cons_append] at h
    injection h with h1 h2
    subst h1
    rcases append_split_one h2 with ht | ht
    · subst ht; exact Or.inr (Or.inl rfl)
    · subst ht; exact Or.inr (Or.inr rfl)

theorem rank_of_filtered (fp : String) (s : Bool) (e : Option String) (l : List Op)
    (hl : l = [] ∨ l = [Op.start_file fp] ∨ l = [Op.start_file fp, Op.finish_file fp s e]) :
    entryRank (entryFold none l) = l.length := by
  rcases hl with h | h | h <;> subst h
  · rfl
  · simp [entryFold, entryRank]
  · cases s <;> simp [entryFold, entryRank]

/-- C9: if within a run the ledger operations touching a file are exactly one
start_file followed by one terminal finish_file (any other ledger operations
freely interleaved around them), then the entry is created at the start, its
final value carries the terminal status and the recorded error, it is never
deleted, every observation point between operations sees pending (absent),
processing, or that terminal value, and its rank pending < processing <
terminal is monotone along the run: the status transitions
pending → processing → success or failed monotonically and exactly once. -/
theorem C9_entry_lifecycle (ops : List Op) (fp : String) (s : Bool) (e : Option String)
    (h : ops.filter (touches fp) = [Op.start_file fp, Op.finish_file fp s e]) :
    dget (applyOps Progress.init ops).files fp =
      some { status := if s then "success" else "failed", error := e }
    ∧ (∀ pre suf : List Op, pre ++ suf = ops →
        dget (applyOps Progress.init pre).files fp = none
        ∨ dget (applyOps Progress.init pre).files fp =
            some { status := "processing", error := none }
        ∨ dget (applyOps Progress.init pre).files fp =
            some { status := if s then "success" else "failed", error := e })
    ∧ (∀ pre1 suf1 pre2 suf2 : List Op, pre1 ++ suf1 = pre2 → pre2 ++ suf2 = ops →
        entryRank (dget (applyOps Progress.init pre1).files fp) ≤
          entryRank (dget (applyOps Progress.init pre2).files fp)) := by
  have hsplit : ∀ pre suf : List Op, pre ++ suf = ops →
      pre.filter (touches fp) = []
      ∨ pre.filter (touches fp) = [Op.start_file fp]
      ∨ pre.filter (touches fp) = [Op.start_file fp, Op.finish_file fp s e] := by
    intro pre suf hps
    have hf : pre.filter (touches fp) ++ suf.filter (touches fp) =
        [Op.start_file fp, Op.finish_file fp s e] := by
      rw [← List.filter_append, hps]
      exact h
    exact append_split_two hf
  have hval : ∀ pre suf : List Op, pre ++ suf = ops →
      dget (applyOps Progress.init pre).files fp = entryFold none (pre.filter (touches fp)) := by
    intro pre suf hps
    rw [applyOps_entry]
    rfl
  refine ⟨?_, ?_, ?_⟩
  · rw [applyOps_entry, h]
    cases s <;> rfl
  · intro pre suf hps
    rw [hval pre suf hps]
    rcases hsplit pre suf hps with hc | hc | hc <;> rw [hc]
    · exact Or.inl rfl
    · exact Or.inr (Or.inl rfl)
    · exact Or.inr (Or.inr (by cases s <;> rfl))
  · intro pre1 suf1 pre2 suf2 h12 h2o
    have h1o : pre1 ++ (suf1 ++ suf2) = ops := by rw [← List.append_assoc, h12, h2o]
    rw [hval pre1 (suf1 ++ suf2) h1o, hval pre2 suf2 h2o]
    have hr1 := rank_of_filtered fp s e _ (hsplit pre1 (suf1 ++ suf2) h1o)
    have hr2 := rank_of_filtered fp s e _ (hsplit pre2 suf2 h2o)
    rw [hr1, hr2]
    have hlen : (pre2.filter (touches fp)).length =
        (pre1.filter (touches fp)).length + ((suf1.filter (touches fp))).length := by
      rw [← List.length_append, ← List.filter_append, h12]
    omega

/-- C9 witness: a concrete trace starting and finishing one file, with other
ledger operations around it, ends with that file's entry in status success. -/
theorem C9_witness :
    (opsC9.filter (touches "a.md") =
      [Op.start_file "a.md", Op.finish_file "a.md" true none])
    ∧ dget (applyOps Progress.init opsC9).files "a.md" =
        some { status := "success", error := none } := by
  have h : opsC9.filter (touches "a.md") =
      [Op.start_file "a.md", Op.finish_file "a.md" true none] := by decide
  exact ⟨h, (C9_entry_lifecycle opsC9 "a.md" true none h).1⟩

theorem start_file_files (p : Progress) (fp : String) :
    (start_file p fp).files = dset p.files fp { status := "processing", error := none } := rfl

theorem update_status_files (p : Progress) (s : String) :
    (update_status p s).files = p.files := rfl

theorem update_status_skipped (p : Progress) (s : String) :
    (update_status p s).skipped = p.skipped := rfl

theorem finish_start_frame (p : Progress) (fp f2 : String) (x : Bool) (y : Option String)
    (h : f2 ≠ fp) :
    dget (finish_file (start_file p fp) fp x y).files f2 = dget p.files f2 := by
  rw [finish_file_files, start_file_files, dget_dmodify_ne _ _ _ _ h, dget_dset_ne _ _ _ _ h]

theorem ingest_one_frame (rd : Except String String) (call : ClientCall)
    (p : Progress) (fp f2 : String) (h : f2 ≠ fp) :
    dget (ingest_one rd call p fp).1.files f2 = dget p.files f2 := by
  unfold ingest_one
  cases rd with
  | error e => exact finish_start_frame p fp f2 _ _ h
  | ok t =>
    cases insert_document call with
    | error e => exact finish_start_frame p fp f2 _ _ h
    | ok v =>
      by_cases hv : v.truthy
      · simp only [hv, if_true]
        exact finish_start_frame p fp f2 _ _ h
      · simp only [hv, Bool.false_eq_true, if_false]
        exact finish_start_frame p fp f2 _ _ h

theorem ingest_one_entry_expected (env : Env) (p : Progress) (f : String) :
    dget (ingest_one (env.readRes f) (env.insertCall f) p f).1.files f =
      some (expectedEntry env f) := by
  rw [ingest_one_entry]
  unfold expectedEntry
  cases env.readRes f <;> rfl

theorem ingest_one_submitted (rd : Except String String) (call : ClientCall)
    (p : Progress) (fp : String) :
    (ingest_one rd call p fp).2.2 =
      (match rd with | .error _ => ([] : List String) | .ok _ => [fp]) := by
  unfold ingest_one
  cases rd with
  | error e => rfl
  | ok t =>
    cases insert_document call with
    | error e => rfl
    | ok v => by_cases hv : v.truthy <;> simp [hv]

theorem ingest_one_skipped (rd : Except String String) (call : ClientCall)
    (p : Progress) (fp : String) :
    (ingest_one rd call p fp).1.skipped = p.skipped := by
  unfold ingest_one
  cases rd with
  | error e => rw [finish_file_skipped]; rfl
  | ok t =>
    cases insert_document call with
    | error e => rw [finish_file_skipped]; rfl
    | ok v =>
      by_cases hv : v.truthy
      · simp only [hv, if_true]
        rw [finish_file_skipped]
        rfl
      · simp only [hv, Bool.false_eq_true, if_false]
        rw [finish_file_skipped]
        rfl

theorem processSeq_started (env : Env) (fs : List String) : ∀ p : Progress,
    (processSeq env p fs).started = fs := by
  induction fs with
  | nil => intro p; rfl
  | cons f rest ih =>
    intro p
    simp only [processSeq]
    rw [ih]

theorem processSeq_submitted (env : Env) (fs : List String) : ∀ p : Progress,
    (processSeq env p fs).submitted = fs.filter (readOk env) := by
  induction fs with
  | nil => intro p; rfl
  | cons f rest ih =>
    intro p
    simp only [processSeq, List.filter_cons]
    rw [ih, ingest_one_submitted]
    cases hrd : env.readRes f with
    | error e => simp [readOk, hrd]
    | ok t => simp [readOk, hrd]

theorem processSeq_skipped (env : Env) (fs : List String) : ∀ p : Progress,
    (processSeq env p fs).tracker.skipped = p.skipped := by
  induction fs with
  | nil => intro p; rfl
  | cons f rest ih =>
    intro p
    simp only [processSeq]
    rw [ih, ingest_one_skipped]

theorem processSeq_frame (env : Env) (fs : List String) : ∀ (p : Progress) (f : String),
    f ∉ fs → dget (processSeq env p fs).tracker.files f = dget p.files f := by
  induction fs with
  | nil => intro p f _; rfl
  | cons g rest ih =>
    intro p f hf
    have hfg : f ≠ g := fun hh => hf (hh ▸ List.mem_cons_self g rest)
    have hfr : f ∉ rest := fun hh => hf (List.mem_cons_of_mem g hh)
    simp only [processSeq]
    rw [ih _ f hfr, ingest_one_frame _ _ _ _ _ hfg]

theorem processSeq_entry (env : Env) (fs : List String) : ∀ (p : Progress) (f : String),
    fs.Nodup → f ∈ fs →
    dget (processSeq env p fs).tracker.files f = some (expectedEntry env f) := by
  induction fs with
  | nil => intro p f _ hf; cases hf
  | cons g rest ih =>
    intro p f hnd hf
    simp only [processSeq]
    rcases List.mem_cons.mp hf with hfg | hfr
    · subst hfg
      have hgr : f ∉ rest := (List.nodup_cons.mp hnd).1
      rw [processSeq_frame env rest _ f hgr]
      exact ingest_one_entry_expected env p f
    · exact ih _ f (List.nodup_cons.mp hnd).2 hfr

theorem processSeq_append (env : Env) (l1 l2 : List String) : ∀ p : Progress,
    processSeq env p (l1 ++ l2) =
      { tracker := (processSeq env (processSeq env p l1).tracker l2).tracker,
        results := (processSeq env p l1).results ++
          (processSeq env (processSeq env p l1).tracker l2).results,
        started := (processSeq env p l1).started ++
          (processSeq env (processSeq env p l1).tracker l2).started,
        submitted := (processSeq env p l1).submitted ++
          (processSeq env (processSeq env p l1).tracker l2).submitted } := by
  induction l1 with
  | nil => intro p; rfl
  | cons f rest ih =>
    intro p
    simp only [List.cons_append, processSeq, List.append_eq]
    rw [ih]
    simp [List.append_assoc]

theorem chunks_nil (c : Nat) : chunks c ([] : List String) = [] := by
  rw [chunks]

theorem chunks_cons (c : Nat) (x : String) (xs : List String) :
    chunks c (x :: xs) =
      (x :: xs).take (max c 1) :: chunks c ((x :: xs).drop (max c 1)) := by
  rw [chunks]

theorem chunks_join (c : Nat) (l : List String) : (chunks c l).flatten = l := by
  have h : ∀ (n : Nat) (l : List String), l.length ≤ n → (chunks c l).flatten = l := by
    intro n
    induction n with
    | zero =>
      intro l hl
      have hnil : l = [] := List.eq_nil_of_length_eq_zero (Nat.le_zero.mp hl)
      subst hnil
      rw [chunks_nil]
      rfl
    | succ n ih =>
      intro l hl
      cases l with
      | nil => rw [chunks_nil]; rfl
      | cons x xs =>
        have hlen : ((x :: xs).drop (max c 1)).length ≤ n := by
          simp only [List.length_drop, List.length_cons]
          have h1 : 1 ≤ max c 1 := Nat.le_max_right c 1
          simp only [List.length_cons] at hl
          omega
        rw [chunks_cons, List.flatten_cons, ih _ hlen, List.take_append_drop]
  exact h l.length l (Nat.le_refl _)

theorem consult_mono (sa : Option Nat) (t t2 : Nat) (h : t ≤ t2)
    (hc : consult sa t = true) : consult sa t2 = true := by
  cases sa with
  | none => simp [consult] at hc
  | some k =>
    simp only [consult, decide_eq_true_eq] at hc ⊢
    omega

theorem batchLoop_none (env : Env) (hsig : env.sigAt = none) (bs : List (List String)) :
    ∀ (p : Progress) (t : Nat),
    batchLoop env p bs t =
      { tracker := (processSeq env p bs.flatten).tracker,
        results := (processSeq env p bs.flatten).results,
        started := (processSeq env p bs.flatten).started,
        submitted := (processSeq env p bs.flatten).submitted,
        tick := t + bs.length } := by
  induction bs with
  | nil => intro p t; rfl
  | cons b rest ih =>
    intro p t
    simp only [batchLoop, hsig, consult]
    simp only [Bool.false_eq_true, if_false]
    rw [ih, List.flatten_cons, processSeq_append]
    simp only [LoopOut.mk.injEq, List.length_cons]
    refine ⟨?_, ?_, ?_, ?_, ?_⟩ <;> first | trivial | omega

theorem batchLoop_tracker (env : Env) (bs : List (List String)) : ∀ (p : Progress) (t : Nat),
    (batchLoop env p bs t).tracker =
      (processSeq env p (batchLoop env p bs t).started).tracker := by
  induction bs with
  | nil => intro p t; rfl
  | cons b rest ih =>
    intro p t
    simp only [batchLoop]
    split
    · rfl
    · simp only
      rw [ih, processSeq_started, processSeq_append]

theorem batchLoop_started_part (env : Env) (bs : List (List String)) :
    ∀ (p : Progress) (t : Nat), ∃ suf, (batchLoop env p bs t).started ++ suf = bs.flatten := by
  induction bs with
  | nil => intro p t; exact ⟨[], rfl⟩
  | cons b rest ih =>
    intro p t
    simp only [batchLoop]
    split
    · exact ⟨(b :: rest).flatten, rfl⟩
    · simp only
      obtain ⟨suf, hs⟩ := ih (processSeq env p b).tracker (t + 1)
      refine ⟨suf, ?_⟩
      rw [processSeq_started, List.flatten_cons, List.append_assoc, hs]

theorem batchLoop_mem_started (env : Env) (bs : List (List String)) :
    ∀ (p : Progress) (t : Nat) (f : String), f ∈ (batchLoop env p bs t).started →
      ∃ i b, bs[i]? = some b ∧ f ∈ b ∧ consult env.sigAt (t + i) = false := by
  induction bs with
  | nil => intro p t f hf; cases hf
  | cons b rest ih =>
    intro p t f hf
    simp only [batchLoop] at hf
    by_cases hc : consult env.sigAt t = true
    · rw [if_pos hc] at hf
      cases hf
    · rw [if_neg hc] at hf
      simp only at hf
      rw [processSeq_started] at hf
      rcases List.mem_append.mp hf with h1 | h2
      · refine ⟨0, b, by simp, h1, ?_⟩
        simpa using hc
      · obtain ⟨i, b2, hb2, hfb, hcons⟩ := ih _ (t + 1) f h2
        refine ⟨i + 1, b2, by simpa using hb2, hfb, ?_⟩
        rw [show t + (i + 1) = t + 1 + i by omega]
        exact hcons

theorem batchLoop_admitted (env : Env) (bs : List (List String)) :
    ∀ (p : Progress) (t i : Nat) (b : List String), bs[i]? = some b →
      (∀ j, j ≤ i → consult env.sigAt (t + j) = false) →
      ∀ f, f ∈ b → f ∈ (batchLoop env p bs t).started := by
  induction bs with
  | nil => intro p t i b hb; simp at hb
  | cons b0 rest ih =>
    intro p t i b hb hcons f hf
    have hc0 : consult env.sigAt t = false := by
      have := hcons 0 (Nat.zero_le i)
      simpa using this
    simp only [batchLoop, hc0, Bool.false_eq_true, if_false]
    rw [processSeq_started]
    refine List.mem_append.mpr ?_
    cases i with
    | zero =>
      have hbb : b0 = b := by simpa using hb
      subst hbb
      exact Or.inl hf
    | succ i2 =>
      refine Or.inr (ih _ (t + 1) i2 b (by simpa using hb) ?_ f hf)
      intro j hj
      have := hcons (j + 1) (by omega)
      rw [show t + (j + 1) = t + 1 + j by omega] at this
      exact this

theorem finishRun_main (env : Env) (p : Progress) (files ftp : List String) (sk : Nat)
    (tick : Nat) (delAtt : List String) (dCount : Nat) (hftp : ftp ≠ []) :
    finishRun env p files ftp (some sk) tick delAtt dCount =
      (if consult env.sigAt
          (batchLoop env (update_file_count p files.length ftp.length sk)
            (chunks env.concurrency ftp) tick).tick then
        { tracker := update_status (batchLoop env
              (update_file_count p files.length ftp.length sk)
              (chunks env.concurrency ftp) tick).tracker "interrupted",
          started := (batchLoop env (update_file_count p files.length ftp.length sk)
            (chunks env.concurrency ftp) tick).started,
          submitted := (batchLoop env (update_file_count p files.length ftp.length sk)
            (chunks env.concurrency ftp) tick).submitted,
          deleteAttempts := delAtt, deletedCount := dCount, raised := none }
      else
        { tracker := update_status (batchLoop env
              (update_file_count p files.length ftp.length sk)
              (chunks env.concurrency ftp) tick).tracker "completed",
          started := (batchLoop env (update_file_count p files.length ftp.length sk)
            (chunks env.concurrency ftp) tick).started,
          submitted := (batchLoop env (update_file_count p files.length ftp.length sk)
            (chunks env.concurrency ftp) tick).submitted,
          deleteAttempts := delAtt, deletedCount := dCount, raised := none }) := by
  unfold finishRun
  have hE : ftp.isEmpty = false := by
    cases ftp with
    | nil => exact absurd rfl hftp
    | cons a l => rfl
  simp only [hE, Bool.false_eq_true, if_false]

theorem run_normal_eq (env : Env) (fs : List String) (hr : env.rglob = Except.ok fs)
    (hne : fs ≠ []) (hh : env.healthOk = true) :
    run env false false =
      finishRun env (update_status Progress.init "running") fs (ftpOf env fs)
        (some (fs.length - (ftpOf env fs).length)) 0 [] 0 := by
  unfold run
  rw [hr]
  have hE : fs.isEmpty = false := by
    cases fs with
    | nil => exact absurd rfl hne
    | cons a l => rfl
  simp [collect_markdown_files, hE, hh]

theorem run_normal_none (env : Env) (fs : List String) (hr : env.rglob = Except.ok fs)
    (hne : fs ≠ []) (hh : env.healthOk = true) (hsig : env.sigAt = none)
    (hab : ftpOf env fs ≠ []) :
    run env false false =
      { tracker := update_status
          (processSeq env (planTracker env fs) (ftpOf env fs)).tracker "completed",
        started := ftpOf env fs,
        submitted := (processSeq env (planTracker env fs) (ftpOf env fs)).submitted,
        deleteAttempts := [], deletedCount := 0, raised := none } := by
  unfold planTracker
  rw [run_normal_eq env fs hr hne hh,
    finishRun_main env _ fs (ftpOf env fs) _ 0 [] 0 hab,
    batchLoop_none env hsig]
  simp only [hsig, consult, Bool.false_eq_true, if_false, chunks_join]
  rw [processSeq_started]

theorem length_filter_isSome (snap : List (String × String)) (fs : List String) :
    fs.length - (fs.filter (fun f => (dget snap f).isNone)).length =
      (fs.filter (fun f => (dget snap f).isSome)).length := by
  induction fs with
  | nil => rfl
  | cons f rest ih =>
    have hle := List.length_filter_le (fun f => (dget snap f).isNone) rest
    simp only [List.filter_cons]
    cases h : dget snap f with
    | none =>
      simp [h]
      omega
    | some v =>
      simp [h]
      omega

/-- C2 (amended): in a normal-mode run (force and skip_check both false) that
enumerates at least one file, passes the health check, receives no
cancellation signal, and has at least one enumerated file absent from the
planning-time snapshot, exactly the absent files are started in enumeration
order, the insert call is made exactly for the absent files whose read
succeeds, a file present in the snapshot is never submitted, and the recorded
skipped count equals the number of enumerated files present in the snapshot.
(When every enumerated file is present the run returns early with status
completed and the persisted skipped count keeps its initial 0 — see the
counterexample.) -/
theorem C2_normal_mode_plan (env : Env) (fs : List String)
    (hr : env.rglob = Except.ok fs) (hne : fs ≠ []) (hh : env.healthOk = true)
    (hsig : env.sigAt = none) (hab : ftpOf env fs ≠ []) :
    (run env false false).started = ftpOf env fs
    ∧ (run env false false).submitted = (ftpOf env fs).filter (readOk env)
    ∧ (∀ f, f ∈ fs → (dget (snapshotOf env) f).isSome = true →
        f ∉ (run env false false).submitted)
    ∧ (run env false false).tracker.skipped =
        (fs.filter (fun f => (dget (snapshotOf env) f).isSome)).length
    ∧ (run env false false).tracker.status = "completed" := by
  rw [run_normal_none env fs hr hne hh hsig hab]
  refine ⟨rfl, processSeq_submitted env _ _, ?_, ?_, rfl⟩
  · intro f hf hsome hmem
    have hmem1 : f ∈ (processSeq env (planTracker env fs) (ftpOf env fs)).submitted := hmem
    rw [processSeq_submitted] at hmem1
    have hmem2 : f ∈ ftpOf env fs := List.mem_of_mem_filter hmem1
    have hmem3 : f ∈ fs.filter (fun g => (dget (snapshotOf env) g).isNone) := hmem2
    have hnone : (dget (snapshotOf env) f).isNone = true := by
      have h4 := List.of_mem_filter hmem3
      simpa using h4
    cases hd : dget (snapshotOf env) f with
    | none => rw [hd] at hsome; simp at hsome
    | some v => rw [hd] at hnone; simp at hnone
  · have h1 : (update_status
        (processSeq env (planTracker env fs) (ftpOf env fs)).tracker "completed").skipped =
        (planTracker env fs).skipped := by
      rw [update_status_skipped, processSeq_skipped]
    exact h1.trans (length_filter_isSome (snapshotOf env) fs)

/-- C2 counterexample: one enumerated file whose path the snapshot already
holds — the claim demands a recorded skipped count of 1, but the run returns
through the all-indexed early exit before update_file_count runs, so the
persisted skipped count stays 0 (and the run reports completed). -/
theorem C2_counterexample :
    ((["a.md"] : List String).filter
      (fun f => (dget (snapshotOf envC2x) f).isSome)).length = 1
    ∧ (run envC2x false false).submitted = []
    ∧ (run envC2x false false).tracker.skipped = 0
    ∧ (run envC2x false false).tracker.status = "completed" := by
  decide

/-- C2 witness: the claim's own scenario — a snapshot holding 2 of 5 files —
yields exactly the 3 absent submissions and a recorded skipped count of 2. -/
theorem C2_witness :
    (ftpOf envC2w ["a.md", "b.md", "c.md", "d.md", "e.md"] ≠ [])
    ∧ (run envC2w false false).submitted = ["a.md", "c.md", "e.md"]
    ∧ (run envC2w false false).tracker.skipped = 2 := by
  have h := C2_normal_mode_plan envC2w ["a.md", "b.md", "c.md", "d.md", "e.md"]
    rfl (by decide) rfl rfl (by decide)
  refine ⟨by decide, ?_, ?_⟩
  · rw [h.2.1]
    decide
  · rw [h.2.2.2.1]
    decide

theorem readErrorMsg_ne_empty (e : String) : readErrorMsg e ≠ "" := by
  intro h
  have h2 := congrArg String.length h
  unfold readErrorMsg at h2
  rw [String.length_append] at h2
  have h3 : ("Failed to read file: " : String).length = 21 := by decide
  have h4 : ("" : String).length = 0 := rfl
  omega

theorem ingestErrorMsg_ne_empty (e : String) : ingestErrorMsg e ≠ "" := by
  intro h
  have h2 := congrArg String.length h
  unfold ingestErrorMsg at h2
  rw [String.length_append] at h2
  have h3 : ("Failed to ingest: " : String).length = 18 := by decide
  have h4 : ("" : String).length = 0 := rfl
  omega

theorem expectedEntry_failed (env : Env) (f : String)
    (hcond : (∃ e2, env.readRes f = Except.error e2)
      ∨ (∃ e2, insert_document (env.insertCall f) = Except.error e2)) :
    ∃ msg, expectedEntry env f = { status := "failed", error := some msg }
      ∧ msg ≠ "" := by
  unfold expectedEntry
  cases hrd : env.readRes f with
  | error e => exact ⟨readErrorMsg e, rfl, readErrorMsg_ne_empty e⟩
  | ok t =>
    rcases hcond with ⟨e2, he⟩ | ⟨e2, he⟩
    · rw [hrd] at he
      simp at he
    · unfold entryOfInsert
      rw [he]
      exact ⟨ingestErrorMsg e2, rfl, ingestErrorMsg_ne_empty e2⟩

/-- C4 (amended): in an uncancelled healthy normal-mode run over distinct
paths, a file whose content read or insert call errors ends with status
failed and a non-empty error string — the full error text, which the code
does not truncate to any bounded length (see the counterexample) — the error
never propagates out of the run, and every planned file is still started and
receives its own terminal entry: a single file failure never aborts the run. -/
theorem C4_per_file_failure_isolated (env : Env) (fs : List String)
    (hr : env.rglob = Except.ok fs) (hne : fs ≠ []) (hh : env.healthOk = true)
    (hnd : fs.Nodup) (hsig : env.sigAt = none) (hab : ftpOf env fs ≠ []) :
    (run env false false).raised = none
    ∧ (run env false false).started = ftpOf env fs
    ∧ (run env false false).tracker.status = "completed"
    ∧ (∀ f, f ∈ ftpOf env fs →
        dget (run env false false).tracker.files f = some (expectedEntry env f))
    ∧ (∀ f, f ∈ ftpOf env fs →
        ((∃ e2, env.readRes f = Except.error e2)
          ∨ (∃ e2, insert_document (env.insertCall f) = Except.error e2)) →
        ∃ msg, dget (run env false false).tracker.files f =
            some { status := "failed", error := some msg } ∧ msg ≠ "") := by
  rw [run_normal_none env fs hr hne hh hsig hab]
  have hnd2 : (ftpOf env fs).Nodup := hnd.filter _
  refine ⟨rfl, rfl, rfl, ?_, ?_⟩
  · intro f hf
    exact processSeq_entry env (ftpOf env fs) (planTracker env fs) f hnd2 hf
  · intro f hf hcond
    obtain ⟨msg, hmsg, hne2⟩ := expectedEntry_failed env f hcond
    have h1 := processSeq_entry env (ftpOf env fs) (planTracker env fs) f hnd2 hf
    rw [hmsg] at h1
    exact ⟨msg, h1, hne2⟩

/-- C4 counterexample: the recorded error text is the untruncated exception
message — there is no bound B such that every recorded read-error string has
length at most B, so the error string is not truncated to a bounded length. -/
theorem C4_counterexample :
    ¬ ∃ B : Nat, ∀ e : String, (readErrorMsg e).length ≤ B := by
  rintro ⟨B, hB⟩
  have h1 := hB (String.mk (List.replicate (B + 1) 'a'))
  unfold readErrorMsg at h1
  rw [String.length_append] at h1
  have h2 : ("Failed to read file: " : String).length = 21 := by decide
  have h3 : (String.mk (List.replicate (B + 1) 'a')).length = B + 1 := by
    show (List.replicate (B + 1) 'a').length = B + 1
    simp
  omega

/-- C4 witness: a two-file run whose first file fails to read — the failing
file ends failed with a non-empty error, the other file succeeds, and the
error does not propagate. -/
theorem C4_witness :
    (ftpOf envC4w ["bad.md", "good.md"] ≠ [])
    ∧ dget (run envC4w false false).tracker.files "bad.md" =
        some { status := "failed", error := some "Failed to read file: UnicodeDecodeError" }
    ∧ dget (run envC4w false false).tracker.files "good.md" =
        some { status := "success", error := none }
    ∧ (run envC4w false false).raised = none := by
  have h := C4_per_file_failure_isolated envC4w ["bad.md", "good.md"]
    rfl (by decide) rfl (by decide) rfl (by decide)
  refine ⟨by decide, ?_, ?_, h.1⟩
  · rw [h.2.2.2.1 "bad.md" (by decide)]
    decide
  · rw [h.2.2.2.1 "good.md" (by decide)]
    decide

/-- C5 (amended): the shutdown flag, once signaled, never returns to armed —
the handler only ever writes True and flag reads are monotone in time; a
normal-mode run that reaches the submission phase ends interrupted or
completed; with no signal it completes having started exactly the planned
files; a flag already set at the first admission check leaves no file started
and ends interrupted; no file of a batch whose admission check saw the flag
set is ever started; every file of a batch admitted with the flag clear runs
to completion with its terminal entry recorded; but a run that ends before
the submission phase reports its usual status even after a signal — the
all-indexed early exit still reports completed (see the counterexample). -/
theorem C5_cancellation (env : Env) (fs : List String)
    (hr : env.rglob = Except.ok fs) (hne : fs ≠ []) (hh : env.healthOk = true)
    (hnd : fs.Nodup) (hab : ftpOf env fs ≠ []) :
    (∀ t t2 : Nat, t ≤ t2 → consult env.sigAt t = true → consult env.sigAt t2 = true)
    ∧ (signal_handler false = true ∧ signal_handler true = true)
    ∧ ((run env false false).tracker.status = "interrupted"
        ∨ (run env false false).tracker.status = "completed")
    ∧ (env.sigAt = none →
        (run env false false).tracker.status = "completed"
        ∧ (run env false false).started = ftpOf env fs)
    ∧ (consult env.sigAt 0 = true →
        (run env false false).started = []
        ∧ (run env false false).tracker.status = "interrupted")
    ∧ (∀ f, f ∈ (run env false false).started →
        ∃ i b, (chunks env.concurrency (ftpOf env fs))[i]? = some b ∧ f ∈ b
          ∧ consult env.sigAt i = false)
    ∧ (∀ i b, (chunks env.concurrency (ftpOf env fs))[i]? = some b →
        consult env.sigAt i = false →
        ∀ f, f ∈ b → f ∈ (run env false false).started)
    ∧ (∀ f, f ∈ (run env false false).started →
        dget (run env false false).tracker.files f = some (expectedEntry env f)) := by
  rw [run_normal_eq env fs hr hne hh,
    finishRun_main env _ fs (ftpOf env fs) _ 0 [] 0 hab]
  set lo := batchLoop env
    (update_file_count (update_status Progress.init "running") fs.length
      (ftpOf env fs).length (fs.length - (ftpOf env fs).length))
    (chunks env.concurrency (ftpOf env fs)) 0 with hlo
  have hnd2 : (ftpOf env fs).Nodup := hnd.filter _
  refine ⟨fun t t2 ht hc => consult_mono _ t t2 ht hc, ⟨rfl, rfl⟩, ?_, ?_, ?_, ?_, ?_, ?_⟩
  · by_cases hcf : consult env.sigAt lo.tick = true
    · rw [if_pos hcf]
      exact Or.inl rfl
    · rw [if_neg hcf]
      exact Or.inr rfl
  · intro hsig
    have hc : consult env.sigAt lo.tick = false := by simp [hsig, consult]
    rw [if_neg (by simp [hc])]
    refine ⟨rfl, ?_⟩
    rw [hlo, batchLoop_none env hsig]
    simp only
    rw [chunks_join, processSeq_started]
  · intro hc0
    have hbreak : lo =
        { tracker := update_file_count (update_status Progress.init "running") fs.length
            (ftpOf env fs).length (fs.length - (ftpOf env fs).length),
          results := [], started := [], submitted := [], tick := 1 } := by
      rw [hlo]
      cases hftp2 : ftpOf env fs with
      | nil => exact absurd hftp2 hab
      | cons x xs =>
        rw [chunks_cons]
        simp [batchLoop, hc0]
    have h2 : consult env.sigAt 1 = true := consult_mono _ 0 1 (by omega) hc0
    rw [hbreak, if_pos (by simpa using h2)]
    exact ⟨rfl, rfl⟩
  · intro f hf
    have hf2 : f ∈ lo.started := by
      by_cases hcf : consult env.sigAt lo.tick = true
      · rw [if_pos hcf] at hf
        exact hf
      · rw [if_neg hcf] at hf
        exact hf
    rw [hlo] at hf2
    obtain ⟨i, b, hb, hfb, hcons⟩ := batchLoop_mem_started env _ _ 0 f hf2
    refine ⟨i, b, hb, hfb, ?_⟩
    simpa using hcons
  · intro i b hb hci f hfb
    have hmem : f ∈ lo.started := by
      rw [hlo]
      refine batchLoop_admitted env _ _ 0 i b hb ?_ f hfb
      intro j hj
      cases hcj : consult env.sigAt (0 + j) with
      | false => rfl
      | true =>
        have h2 := consult_mono env.sigAt (0 + j) i (by omega) hcj
        exact absurd h2 (by simp [hci])
    by_cases hcf : consult env.sigAt lo.tick = true
    · rw [if_pos hcf]
      exact hmem
    · rw [if_neg hcf]
      exact hmem
  · intro f hf
    have hf2 : f ∈ lo.started := by
      by_cases hcf : consult env.sigAt lo.tick = true
      · rw [if_pos hcf] at hf
        exact hf
      · rw [if_neg hcf] at hf
        exact hf
    have hndst : lo.started.Nodup := by
      obtain ⟨suf, hsuf⟩ := batchLoop_started_part env
        (chunks env.concurrency (ftpOf env fs))
        (update_file_count (update_status Progress.init "running") fs.length
          (ftpOf env fs).length (fs.length - (ftpOf env fs).length)) 0
      rw [chunks_join] at hsuf
      rw [hlo]
      have hap : ((batchLoop env
          (update_file_count (update_status Progress.init "running") fs.length
            (ftpOf env fs).length (fs.length - (ftpOf env fs).length))
          (chunks env.concurrency (ftpOf env fs)) 0).started ++ suf).Nodup := by
        rw [hsuf]
        exact hnd2
      exact List.Nodup.of_append_left hap
    have htr : lo.tracker = (processSeq env (planTracker env fs) lo.started).tracker := by
      rw [hlo]
      exact batchLoop_tracker env _ _ 0
    have hentry := processSeq_entry env lo.started (planTracker env fs) f hndst hf2
    by_cases hcf : consult env.sigAt lo.tick = true
    · rw [if_pos hcf]
      show dget (update_status lo.tracker "interrupted").files f = _
      rw [update_status_files, htr]
      exact hentry
    · rw [if_neg hcf]
      show dget (update_status lo.tracker "completed").files f = _
      rw [update_status_files, htr]
      exact hentry

/-- C5 counterexample: with the signal already delivered before the run and
every enumerated file already indexed, the run exits through the all-indexed
early return with terminal status completed, not interrupted. -/
theorem C5_counterexample :
    consult envC5x.sigAt 0 = true
    ∧ (run envC5x false false).tracker.status = "completed" := by
  decide

/-- C5 witness: four files at concurrency two with the signal arriving after
the first batch boundary — the run reaches the submission phase and ends in a
terminal status of interrupted or completed. -/
theorem C5_witness :
    (ftpOf envC5w ["a.md", "b.md", "c.md", "d.md"] ≠ [])
    ∧ ((run envC5w false false).tracker.status = "interrupted"
        ∨ (run envC5w false false).tracker.status = "completed") := by
  have h := C5_cancellation envC5w ["a.md", "b.md", "c.md", "d.md"]
    rfl (by decide) rfl (by decide) (by decide)
  exact ⟨by decide, h.2.2.1⟩

/-- C6: force-mode runs crash before the submission phase: the deletion loop
runs strictly sequentially (no concurrency ceiling of any kind exists in the
code) and completes with one attempt per snapshot document, after which the
force branch reads the local skipped_count it never assigned — a NameError —
so the outer except sets status failed and re-raises, and no file is ever
submitted; a raising delete call likewise aborts the whole run, since there
is no per-item try around delete_document. -/
theorem C6_force_mode_aborts_before_submission :
    ((run envC6a true false).deleteAttempts = ["d1"]
      ∧ (run envC6a true false).deletedCount = 1
      ∧ (run envC6a true false).raised =
          some "NameError: name skipped_count is not defined"
      ∧ (run envC6a true false).tracker.status = "failed"
      ∧ (run envC6a true false).submitted = []
      ∧ (run envC6a true false).started = [])
    ∧ ((run envC6b true false).deleteAttempts = ["d1"]
      ∧ (run envC6b true false).raised = some "Delete failed: boom"
      ∧ (run envC6b true false).tracker.status = "failed"
      ∧ (run envC6b true false).submitted = []) := by
  decide

theorem run_force_empty_snapshot (env : Env) (fs : List String)
    (hr : env.rglob = Except.ok fs) (hne : fs ≠ []) (hh : env.healthOk = true)
    (hsnap : snapshotOf env = []) :
    run env true false =
      { tracker := update_status (update_status Progress.init "running") "failed",
        started := [], submitted := [], deleteAttempts := [], deletedCount := 0,
        raised := some "NameError: name skipped_count is not defined" } := by
  unfold run
  rw [hr]
  have hE : fs.isEmpty = false := by
    cases fs with
    | nil => exact absurd rfl hne
    | cons a l => rfl
  simp [collect_markdown_files, hE, hh, hsnap, deletionLoop, finishRun]

/-- C7 (amended): when the remote listing call raises, or returns a
structurally invalid response (a dict with none of the recognised keys, or a
value that is neither dict nor list), the planner degrades to an empty
snapshot in both normal and force planning — logging the raising case at
error level, not warning, and the invalid case not at all beyond the
info-level zero count. In normal mode the run then continues with every
enumerated file as a submission candidate rather than aborting. In force mode
the empty snapshot means no deletion is attempted and the plan makes every
enumerated file a submission candidate, but the run nonetheless aborts before
the submission phase at the force branch's unbound skipped_count — an abort
caused by that defect, not by the listing failure — so no file is started. -/
theorem C7_listing_failure_degrades (env : Env) (fs : List String) (err : String)
    (hr : env.rglob = Except.ok fs) (hne : fs ≠ []) (hh : env.healthOk = true)
    (hsig : env.sigAt = none)
    (hbad : env.listing = Except.error err
      ∨ env.listing = Except.ok SearchResponse.dictOther
      ∨ env.listing = Except.ok SearchResponse.other) :
    snapshotOf env = []
    ∧ (run env false false).started = fs
    ∧ (run env false false).raised = none
    ∧ (run env false false).tracker.status = "completed"
    ∧ (env.listing = Except.error err →
        (get_indexed_documents env.listing).2 =
          [(LogLevel.info, "Checking for already indexed documents..."),
           (LogLevel.error, "Could not query existing documents: " ++ err)])
    ∧ (run env true false).deleteAttempts = []
    ∧ (run env true false).deletedCount = 0
    ∧ (run env true false).started = []
    ∧ (run env true false).submitted = []
    ∧ (run env true false).raised =
        some "NameError: name skipped_count is not defined"
    ∧ (run env true false).tracker.status = "failed" := by
  have hsnap : snapshotOf env = [] := by
    rcases hbad with hb | hb | hb <;> simp [snapshotOf, get_indexed_documents, hb]
  have hftp : ftpOf env fs = fs := by
    unfold ftpOf
    rw [hsnap]
    exact List.filter_eq_self.mpr (fun a _ => rfl)
  have hab : ftpOf env fs ≠ [] := by
    rw [hftp]
    exact hne
  rw [run_normal_none env fs hr hne hh hsig hab,
    run_force_empty_snapshot env fs hr hne hh hsnap]
  refine ⟨hsnap, hftp, rfl, rfl, ?_, rfl, rfl, rfl, rfl, rfl, rfl⟩
  intro hl
  rw [hl]
  rfl

/-- C7 counterexample: a raising listing call does degrade to an empty
snapshot, but no warning-level message is ever logged (the failure is logged
at error level), refuting the claim's "logging a warning"; and in force
planning the run does not continue with every enumerated file as a submission
candidate — it aborts with status failed at the unbound skipped_count before
any file is started — refuting "the run continues ... rather than aborting"
on the claim's force half. -/
theorem C7_counterexample :
    (get_indexed_documents (Except.error "boom")).1 = []
    ∧ (get_indexed_documents (Except.error "boom")).2.filter
        (fun l => decide (l.1 = LogLevel.warning)) = []
    ∧ (get_indexed_documents (Except.error "boom")).2.any
        (fun l => decide (l.1 = LogLevel.error)) = true
    ∧ (run envC7w true false).tracker.status = "failed"
    ∧ (run envC7w true false).started = []
    ∧ (run envC7w true false).raised =
        some "NameError: name skipped_count is not defined" := by
  decide

/-- C7 witness: a run whose listing call raises sees an empty snapshot, still
starts every enumerated file in normal mode, and in force mode aborts at the
unbound skipped_count with nothing started. -/
theorem C7_witness :
    snapshotOf envC7w = []
    ∧ (run envC7w false false).started = ["a.md", "b.md"]
    ∧ (run envC7w true false).started = []
    ∧ (run envC7w true false).tracker.status = "failed" := by
  have h := C7_listing_failure_degrades envC7w ["a.md", "b.md"] "boom"
    rfl (by decide) rfl rfl (Or.inl rfl)
  exact ⟨h.1, h.2.1, h.2.2.2.2.2.2.2.1, h.2.2.2.2.2.2.2.2.2.2⟩

end Ingest
